import Mathlib

/-!
Verification of the document ingestion pipeline of the
`decodo-python-automation` repository: a shallow embedding in Lean 4 of
the windowed chunker (`src/preprocessing.py`), the loader hierarchy
(`src/sources/base_loader.py`, `src/sources/unified.py`,
`src/sources/document_loader.py`, `src/sources/web_loader.py`) and the
relevant data model (`src/models.py`), together with theorems settling
the specification's claims about them.

Python strings are modelled as `String`/`List Char` (one `Char` per code
point, matching Python's `len` and indexing), Python `int` as `Int`
where values can go negative (the chunker cursor) and `Nat` where they
cannot, and exceptions as an explicit `Except` error channel.
-/

/-- Python `str.split()` helper: accumulates the current word (reversed)
while scanning.  Runs of whitespace are collapsed and empty words
dropped, as CPython does for `split` with no argument. -/
def pySplitAux : List Char → List Char → List (List Char)
  | [], acc => if acc.isEmpty then [] else [acc.reverse]
  | c :: cs, acc =>
    if c.isWhitespace then
      if acc.isEmpty then pySplitAux cs []
      else acc.reverse :: pySplitAux cs []
    else pySplitAux cs (c :: acc)

/-- Python `content.split()`: whitespace-delimited words, empties dropped. -/
def pySplit (s : List Char) : List (List Char) :=
  pySplitAux s []

/-- Effective index of a Python slice endpoint: negative indices count
from the end (clamped at 0), positive ones are clamped at the length. -/
def pyIndex (len : Nat) (i : Int) : Nat :=
  if i < 0 then ((len : Int) + i).toNat else min i.toNat len

/-- Python slice `s[a:b]` on a code-point list. -/
def pySlice (s : List Char) (a b : Int) : List Char :=
  (s.take (pyIndex s.length b)).drop (pyIndex s.length a)

/-- `models.TextChunk`, restricted to the fields `chunk_text` sets
(`src/models.py` lines 52-59); the inherited `BaseEntity` id/timestamps
are runtime-generated noise irrelevant to every claim. -/
structure TextChunk where
  content : List Char
  start_index : Int
  end_index : Int
  chunk_index : Nat
  token_count : Nat
deriving DecidableEq

/-- `end = min(start + self.max_chars, len(text))`
(`src/preprocessing.py` line 20). -/
def chunkStop (max_chars : Nat) (text : List Char) (start : Int) : Int :=
  min (start + (max_chars : Int)) ((text.length : Int))

/-- Cursor update of one loop iteration (`src/preprocessing.py` lines
32-33): `start = end - overlap`, then
`start = max(start, end) if overlap >= max_chars else start`. -/
def nextStart (max_chars overlap : Nat) (text : List Char) (start : Int) : Int :=
  let stop := chunkStop max_chars text start
  if max_chars ≤ overlap then max (stop - (overlap : Int)) stop
  else stop - (overlap : Int)

/-- The chunk appended by one loop iteration
(`src/preprocessing.py` lines 20-31). -/
def chunkAt (max_chars : Nat) (text : List Char) (start : Int) (index : Nat) : TextChunk :=
  let stop := chunkStop max_chars text start
  let content := pySlice text start stop
  ⟨content, start, stop, index, (pySplit content).length⟩

/-- The `while start < len(text)` loop of `TextPreprocessor.chunk_text`
(`src/preprocessing.py` lines 19-34), made total with explicit fuel:
`none` means the loop has not finished within `fuel` iterations, so the
real loop terminates exactly when some fuel yields `some`. -/
def chunkLoop (max_chars overlap : Nat) (text : List Char) :
    Nat → Int → Nat → Option (List TextChunk)
  | 0, _, _ => none
  | fuel + 1, start, index =>
    if start < (text.length : Int) then
      match chunkLoop max_chars overlap text fuel
          (nextStart max_chars overlap text start) (index + 1) with
      | none => none
      | some rest => some (chunkAt max_chars text start index :: rest)
    else some []

/-- `TextPreprocessor.chunk_text` (`src/preprocessing.py` lines 13-35):
empty text short-circuits to `[]`, otherwise the loop runs from cursor 0
and index 0. -/
def chunk_text (max_chars overlap : Nat) (text : List Char) (fuel : Nat) :
    Option (List TextChunk) :=
  if text.isEmpty then some [] else chunkLoop max_chars overlap text fuel 0 0

/-- `chainFrom s cs`: the chunks in `cs` are consecutive non-empty
windows starting exactly at `s` — each chunk starts where told, makes
strict forward progress, and the next chunk starts at its end. -/
def chainFrom : Int → List TextChunk → Bool
  | _, [] => true
  | s, c :: cs =>
    decide (c.start_index = s) && decide (s < c.end_index) &&
      chainFrom c.end_index cs

/-- `models.DocumentType` (`src/models.py` lines 17-25). -/
inductive DocumentType
  | pdf | docx | txt | md | html | json | csv | url
deriving DecidableEq

/-- The two exception classes the loaders can raise: `ValueError` from
`DocumentType(suffix)` enum construction on an unmapped suffix, and the
repository's own `DocumentLoadError` (`src/core/exceptions.py`). -/
inductive PyError
  | valueError (msg : String)
  | documentLoadError (msg : String)
deriving DecidableEq

/-- `models.Document` restricted to the fields `create_document` sets
(`src/models.py` lines 42-49); the inherited id/timestamps/metadata are
irrelevant to every claim. -/
structure Document where
  title : String
  content : String
  source : String
  doc_type : DocumentType
  word_count : Nat
  char_count : Nat
deriving DecidableEq

/-- `s.startswith(pre)` on code-point lists. -/
def startsWithChars (s pre : List Char) : Bool :=
  match pre, s with
  | [], _ => true
  | _ :: _, [] => false
  | p :: ps, c :: cs => p == c && startsWithChars cs ps

/-- `s.endswith(suf)` on code-point lists. -/
def endsWithChars (s suf : List Char) : Bool :=
  startsWithChars s.reverse suf.reverse

/-- Python `pat in s` substring membership on code-point lists. -/
def containsChars (pat : List Char) : List Char → Bool
  | [] => pat.isEmpty
  | c :: rest => startsWithChars (c :: rest) pat || containsChars pat rest

/-- Split a path string at `/` separators (empties kept, as `str.split`
does; they are filtered away by `pathParts`). -/
def splitSlashAux : List Char → List Char → List (List Char)
  | [], acc => [acc.reverse]
  | c :: cs, acc =>
    if c = '/' then acc.reverse :: splitSlashAux cs []
    else splitSlashAux cs (c :: acc)

/-- `pathlib` parsing of a POSIX path: components with empty and `"."`
parts dropped, which is how `PurePosixPath` normalizes. -/
def pathParts (s : String) : List (List Char) :=
  (splitSlashAux s.data []).filter (fun p => !(p.isEmpty) && !(p == ['.']))

/-- `Path(source).name`: the final component, `""` for an empty path. -/
def pathFileName (s : String) : List Char :=
  (pathParts s).getLast?.getD []

/-- Python `name.rfind(c)`: index of the last occurrence, `-1` if absent. -/
def pyRfind (cs : List Char) (c : Char) : Int :=
  match cs.reverse.findIdx? (fun x => x == c) with
  | none => -1
  | some j => ((cs.length : Int) - 1 - (j : Int))

/-- `Path(...).suffix` as CPython computes it from the name:
`name[i:]` for the last dot index `i` when `0 < i < len(name) - 1`,
else the empty string. -/
def nameSuffix (cs : List Char) : List Char :=
  let i := pyRfind cs '.'
  if 0 < i ∧ i < (cs.length : Int) - 1 then cs.drop i.toNat else []

/-- `p.suffix.lower().lstrip(".")` as used by both classifiers
(`src/sources/base_loader.py` line 34, `src/sources/unified.py` line 30). -/
def normSuffix (source : String) : List Char :=
  ((nameSuffix (pathFileName source)).map Char.toLower).dropWhile (fun c => c = '.')

/-- `DocumentType(suffix)` enum lookup: `some` on the eight members'
values, `none` for the `ValueError` case. -/
def documentTypeFromSuffix (cs : List Char) : Option DocumentType :=
  if cs == "pdf".data then some .pdf
  else if cs == "docx".data then some .docx
  else if cs == "txt".data then some .txt
  else if cs == "md".data then some .md
  else if cs == "html".data then some .html
  else if cs == "json".data then some .json
  else if cs == "csv".data then some .csv
  else if cs == "url".data then some .url
  else none

/-- `BaseLoader.get_document_type` (`src/sources/base_loader.py` lines
30-35): strings starting with `"http"` are URLs; otherwise the
normalized suffix is forced through the enum, raising `ValueError` when
unmapped. -/
def get_document_type (source : String) : Except PyError DocumentType :=
  if startsWithChars source.data ("http".data) then .ok .url
  else
    match documentTypeFromSuffix (normSuffix source) with
    | some t => .ok t
    | none => .error (.valueError (String.mk (normSuffix source)))

/-- `BaseLoader.create_document` (`src/sources/base_loader.py` lines
37-46): derived word/char counts guarded by Python truthiness of
`content`. -/
def create_document (title content source : String) (doc_type : DocumentType) : Document :=
  ⟨title, content, source, doc_type,
    if content = "" then 0 else (pySplit content.data).length,
    if content = "" then 0 else content.length⟩

/-- The three concrete loaders `UnifiedLoader` dispatches to. -/
inductive LoaderKind
  | web | pdfLoader | documentLoader
deriving DecidableEq

/-- `UnifiedLoader._select_loader` (`src/sources/unified.py` lines
24-36) over an abstract filesystem `fs` (the list of existing paths):
http(s) sources go to the web loader, missing paths yield `None`, and
an existing path's suffix is forced through the enum — raising
`ValueError` when unmapped — then mapped to a loader family (`url`
suffixes fall through to `None`). -/
def select_loader (fs : List String) (source : String) : Except PyError (Option LoaderKind) :=
  if startsWithChars source.data ("http://".data) ||
      startsWithChars source.data ("https://".data) then .ok (some .web)
  else if !(fs.contains source) then .ok none
  else
    match documentTypeFromSuffix (normSuffix source) with
    | none => .error (.valueError (String.mk (normSuffix source)))
    | some .pdf => .ok (some .pdfLoader)
    | some .txt => .ok (some .documentLoader)
    | some .md => .ok (some .documentLoader)
    | some .html => .ok (some .documentLoader)
    | some .json => .ok (some .documentLoader)
    | some .csv => .ok (some .documentLoader)
    | some .docx => .ok (some .documentLoader)
    | some .url => .ok none

/-- `UnifiedLoader.load_single` (`src/sources/unified.py` lines 38-43)
with the delegated loaders abstracted by `extract`: a `None` selection
raises one conflated `DocumentLoadError`, a selected loader's result —
success or exception — is returned as is. -/
def load_single (fs : List String)
    (extract : LoaderKind → String → Except PyError Document)
    (source : String) : Except PyError Document :=
  match select_loader fs source with
  | .error e => .error e
  | .ok none => .error (.documentLoadError ("Unsupported or missing source: " ++ source))
  | .ok (some l) => extract l source

/-- A concrete stand-in extractor used for witnesses: always succeeds. -/
def okExtract : LoaderKind → String → Except PyError Document :=
  fun _ s => .ok (create_document s "text" s .txt)

/-- Success projection of a per-source outcome. -/
def exToOption : Except PyError Document → Option Document
  | .ok d => some d
  | .error _ => none

/-- The per-source results `asyncio.gather` collects inside
`UnifiedLoader.load_directory` (`src/sources/unified.py` lines 52-61):
each task catches its own exception, so there is exactly one result per
source and the per-source outcome is deterministic. -/
def load_directory_results (fs : List String)
    (extract : LoaderKind → String → Except PyError Document)
    (sources : List String) : List (Except PyError Document) :=
  sources.map (fun s => load_single fs extract s)

/-- The value `UnifiedLoader.load_directory` returns
(`src/sources/unified.py` lines 62-63):
`[r for r in results if isinstance(r, Document)]` — only the successes
survive into the returned list. -/
def load_directory_docs (fs : List String)
    (extract : LoaderKind → String → Except PyError Document)
    (sources : List String) : List Document :=
  (load_directory_results fs extract sources).filterMap
    (fun r => match r with | .ok d => some d | .error _ => none)

/-- `asyncio.gather` without `return_exceptions`: the first failing
awaitable's exception is re-raised by the gather call. -/
def gatherExcept : List (Except PyError Document) → Except PyError (List Document)
  | [] => .ok []
  | .error e :: _ => .error e
  | .ok d :: rs => (gatherExcept rs).map (fun ds => d :: ds)

/-- `BaseLoader.load_multiple` (`src/sources/base_loader.py` lines
20-28): gathers the per-source loads with no per-task exception
handling, so any failure escapes as an exception of the batch call. -/
def load_multiple (fs : List String)
    (extract : LoaderKind → String → Except PyError Document)
    (sources : List String) : Except PyError (List Document) :=
  gatherExcept (sources.map (fun s => load_single fs extract s))

/-- The glob patterns of `UnifiedLoader._find_supported_files`
(`src/sources/unified.py` line 66), by their extensions, in source
order. -/
def supportedExts : List String :=
  ["pdf", "txt", "md", "html", "docx", "json", "csv"]

/-- A file name matches the glob pattern `*.ext`: the name ends in
`.ext` (`*` matches any run of characters, the empty one included).
`pathlib`'s `rglob` uses `fnmatch`-style matching, which treats a
leading dot like any other character, so hidden files — even a file
named exactly `.ext` — are matched. -/
def globExtMatch (ext : String) (name : String) : Bool :=
  endsWithChars name.data ('.' :: ext.data)

/-- Filesystem paths are modelled as component lists; the file name is
the last component. -/
def fileNameOf (p : List String) : String :=
  (p.getLast?).getD ""

/-- `p` lies strictly below directory `dir` (any depth), the files
`directory.rglob(pattern)` can return. -/
def isProperUnder : List String → List String → Bool
  | [], [] => false
  | [], _ :: _ => true
  | _ :: _, [] => false
  | d :: ds, c :: cs => d == c && isProperUnder ds cs

/-- `directory.rglob("*.ext")` over an abstract file list: the files
strictly below `dir` whose name matches the pattern. -/
def rglobMatches (files : List (List String)) (dir : List String) (ext : String) :
    List (List String) :=
  files.filter (fun p => isProperUnder dir p && globExtMatch ext (fileNameOf p))

/-- Python string `<=`: lexicographic by code point, a prefix comparing
less than (or equal to) any extension of itself. -/
def charListLe : List Char → List Char → Bool
  | [], _ => true
  | _ :: _, [] => false
  | a :: as, b :: bs =>
    if a = b then charListLe as bs else decide (a.toNat < b.toNat)

/-- `str(path)` of a relative POSIX path: the components joined by
`/`. -/
def pathString : List String → List Char
  | [] => []
  | [p] => p.data
  | p :: q :: ps => p.data ++ '/' :: pathString (q :: ps)

/-- `pathlib`'s path ordering as used by `sorted(files)`: CPython's
`PurePath.__lt__` compares the case-normalized full path strings (on
POSIX, the path string itself), i.e. lexicographic code-point order on
the full path. -/
def pathR : List String → List String → Prop :=
  fun a b => charListLe (pathString a) (pathString b) = true

instance pathR_decidable : DecidableRel pathR :=
  fun a b => inferInstanceAs (Decidable (charListLe (pathString a) (pathString b) = true))

/-- `UnifiedLoader._find_supported_files` (`src/sources/unified.py`
lines 65-70): the per-pattern `rglob` results are concatenated in
pattern order and sorted with Python's path order. -/
def find_supported_files (files : List (List String)) (dir : List String) :
    List (List String) :=
  List.insertionSort pathR
    ((supportedExts.map (fun ext => rglobMatches files dir ext)).flatten)

/-- The directory-expansion part of `UnifiedLoader.load_directory`
(`src/sources/unified.py` lines 45-49): a missing directory raises
`DocumentLoadError`, an existing one is expanded to the sorted supported
files. -/
def load_directory_expand (dirs files : List (List String)) (dir : List String) :
    Except PyError (List (List String)) :=
  if dirs.contains dir then .ok (find_supported_files files dir)
  else .error (.documentLoadError "Directory not found")

/-- State of one cooperative task of the gather in the batch loaders. -/
inductive TaskState
  | waiting | running | done
deriving DecidableEq

/-- How many tasks currently hold the semaphore (are inside the
`async with semaphore` block, i.e. have a single-source load in
flight). -/
def runningCount : List TaskState → Nat
  | [] => 0
  | .running :: ts => runningCount ts + 1
  | .waiting :: ts => runningCount ts
  | .done :: ts => runningCount ts

/-- Interleaving semantics of the bounded gather of
`UnifiedLoader.load_directory` (`src/sources/unified.py` lines 50-61)
and `BaseLoader.load_multiple` (`src/sources/base_loader.py` lines
20-28): every task wraps its `load_single` call in
`async with semaphore`, so a waiting task may start only while fewer
than `limit` tasks hold the semaphore, and a running task's only other
transition is to finish and release it. -/
inductive SemStep (limit : Nat) : List TaskState → List TaskState → Prop
  | acquire (ts : List TaskState) (i : Nat) (hget : ts[i]? = some .waiting)
      (hcap : runningCount ts < limit) : SemStep limit ts (ts.set i .running)
  | release (ts : List TaskState) (i : Nat) (hget : ts[i]? = some .running) :
      SemStep limit ts (ts.set i .done)

/-- `DocumentLoader._load_html` (`src/sources/document_loader.py` lines
53-66) with the optional BeautifulSoup dependency abstracted as `strip`:
`none` models the `ImportError` branch, which returns the raw file text
`raw`; `some f` models soup-based markup stripping. -/
def load_html (strip : Option (String → String)) (raw : String) : Except PyError String :=
  match strip with
  | none => .ok raw
  | some f => .ok (f raw)

/-- `WebLoader._extract_html_text` (`src/sources/web_loader.py` lines
38-49): without BeautifulSoup the html is returned unchanged. -/
def extract_html_text (strip : Option (String → String)) (html : String) : String :=
  match strip with
  | none => html
  | some f => f html

/-- `WebLoader._fetch_url_content` (`src/sources/web_loader.py` lines
29-36) after a successful fetch: html content types go through markup
extraction, anything else is returned as is. -/
def fetch_url_content (strip : Option (String → String)) (content_type body : String) :
    String :=
  if containsChars ("text/html".data) (content_type.data.map Char.toLower) then
    extract_html_text strip body
  else body

theorem chunkLoop_zero (max_chars overlap : Nat) (text : List Char) (s : Int) (i : Nat) :
    chunkLoop max_chars overlap text 0 s i = none := rfl

theorem chunkLoop_succ (max_chars overlap : Nat) (text : List Char)
    (fuel : Nat) (s : Int) (i : Nat) :
    chunkLoop max_chars overlap text (fuel + 1) s i =
      if s < (text.length : Int) then
        match chunkLoop max_chars overlap text fuel
            (nextStart max_chars overlap text s) (i + 1) with
        | none => none
        | some rest => some (chunkAt max_chars text s i :: rest)
      else some [] := rfl

theorem chunkLoop_fixed (max_chars overlap : Nat) (text : List Char) (s : Int)
    (hs : s < (text.length : Int)) (hfix : nextStart max_chars overlap text s = s) :
    ∀ fuel index, chunkLoop max_chars overlap text fuel s index = none := by
  intro fuel
  induction fuel with
  | zero => intro index; rfl
  | succ f ih =>
    intro index
    rw [chunkLoop_succ, if_pos hs, hfix, ih (index + 1)]

theorem chunkLoop_clamped (max_chars overlap : Nat) (text : List Char)
    (hm : 1 ≤ max_chars) (ho : max_chars ≤ overlap) :
    ∀ (fuel : Nat) (s : Int) (index : Nat), (text.length : Int) ≤ s + (fuel : Int) →
      ∃ cs, chunkLoop max_chars overlap text (fuel + 1) s index = some cs ∧
        chainFrom s cs = true := by
  intro fuel
  induction fuel with
  | zero =>
    intro s index hle
    refine ⟨[], ?_, rfl⟩
    have hns : ¬ s < (text.length : Int) := by omega
    rw [chunkLoop_succ, if_neg hns]
  | succ f ih =>
    intro s index hle
    by_cases hs : s < (text.length : Int)
    · have hstop : nextStart max_chars overlap text s = chunkStop max_chars text s := by
        unfold nextStart
        simp only [if_pos ho]
        omega
      have hlt : s < chunkStop max_chars text s := by
        unfold chunkStop
        omega
      have hrec : (text.length : Int) ≤ chunkStop max_chars text s + f := by
        unfold chunkStop at *
        omega
      obtain ⟨cs, hcs, hchain⟩ := ih (chunkStop max_chars text s) (index + 1) hrec
      refine ⟨chunkAt max_chars text s index :: cs, ?_, ?_⟩
      · rw [chunkLoop_succ, if_pos hs, hstop, hcs]
      · show chainFrom s (chunkAt max_chars text s index :: cs) = true
        rw [show chainFrom s (chunkAt max_chars text s index :: cs) =
              (decide ((chunkAt max_chars text s index).start_index = s) &&
                decide (s < (chunkAt max_chars text s index).end_index) &&
                chainFrom (chunkAt max_chars text s index).end_index cs) from rfl]
        rw [show (chunkAt max_chars text s index).start_index = s from rfl]
        rw [show (chunkAt max_chars text s index).end_index = chunkStop max_chars text s from rfl]
        rw [hchain]
        simp [hlt]
    · refine ⟨[], ?_, rfl⟩
      rw [chunkLoop_succ, if_neg hs]

/-- C1: the spec requires the chunking loop to terminate for every
overlap `0 ≤ o < w`, but the code has no exit once `end` has reached
`len(text)`: with `text = "ab"`, `max_chars = 2`, `overlap = 1` the
cursor sticks at `end - overlap = 1 < 2` forever, so no amount of fuel
makes the loop finish. -/
theorem chunk_text_c1_loop_diverges :
    ∀ fuel, chunk_text 2 1 ("ab".data) fuel = none := by
  have hfix : ∀ f i, chunkLoop 2 1 ("ab".data) f 1 i = none :=
    chunkLoop_fixed 2 1 ("ab".data) 1 (by decide) (by decide)
  intro fuel
  cases fuel with
  | zero =>
    simp [chunk_text, chunkLoop]
  | succ f =>
    have h0 : nextStart 2 1 ("ab".data) 0 = 1 := by decide
    simp [chunk_text, chunkLoop, h0, hfix f 1]

theorem chunkLoop_abc_stuck : ∀ fuel i, chunkLoop 2 1 ("abc".data) fuel 1 i = none := by
  have hfix2 : ∀ f i, chunkLoop 2 1 ("abc".data) f 2 i = none :=
    chunkLoop_fixed 2 1 ("abc".data) 2 (by decide) (by decide)
  intro fuel
  cases fuel with
  | zero => intro i; rfl
  | succ f =>
    intro i
    have h1 : nextStart 2 1 ("abc".data) 1 = 2 := by decide
    rw [chunkLoop_succ, if_pos (by decide : (1 : Int) < (("abc".data).length : Int)), h1,
      hfix2 f (i + 1)]

/-- C3: the spec's tiling invariant for `0 ≤ o < w` is unreachable in the
code because the loop never returns for any overlap `o ≥ 1`: with
`text = "abc"`, `max_chars = 2`, `overlap = 1` the cursor reaches
`2 = len - overlap` and stays there, so the chunk list is never produced
(only the empty-text and `o = 0` cases behave as specified). -/
theorem chunk_text_c3_diverges :
    ∀ fuel, chunk_text 2 1 ("abc".data) fuel = none := by
  intro fuel
  cases fuel with
  | zero => simp [chunk_text, chunkLoop]
  | succ f =>
    have h0 : nextStart 2 1 ("abc".data) 0 = 1 := by decide
    simp [chunk_text, chunkLoop, h0, chunkLoop_abc_stuck f 1]

/-- C6: for `overlap ≥ max_chars ≥ 1` the clamp on line 33 of
`src/preprocessing.py` sets the cursor to the current chunk's end, so
the loop terminates within `len(text) + 1` iterations and the produced
chunks are consecutive non-overlapping windows, each making strict
forward progress. -/
theorem chunk_text_c6_overlap_clamped (max_chars overlap : Nat) (text : List Char)
    (hm : 1 ≤ max_chars) (ho : max_chars ≤ overlap) :
    ∃ cs, chunk_text max_chars overlap text (text.length + 1) = some cs ∧
      chainFrom 0 cs = true := by
  by_cases he : text.isEmpty
  · exact ⟨[], by simp [chunk_text, he], rfl⟩
  · obtain ⟨cs, hcs, hchain⟩ :=
      chunkLoop_clamped max_chars overlap text hm ho text.length 0 0 (by omega)
    exact ⟨cs, by simpa [chunk_text, he] using hcs, hchain⟩

/-- C6 witness: window 2 with the larger overlap 3 on `"abcde"`
terminates and yields consecutive windows. -/
theorem chunk_text_c6_overlap_clamped_witness :
    ∃ cs, chunk_text 2 3 ("abcde".data) (("abcde".data).length + 1) = some cs ∧
      chainFrom 0 cs = true :=
  chunk_text_c6_overlap_clamped 2 3 ("abcde".data) (by decide) (by decide)

/-- C4 counterexample: the code defines no Unrecognized tag — an
unmapped suffix makes `DocumentType(suffix)` raise `ValueError`, an
unhandled error, contradicting the claim that classification is total
and yields an Unrecognized result. -/
theorem get_document_type_c4_counterexample :
    get_document_type "c.exe" = .error (.valueError "exe") := rfl

/-- C4 (amended): classification is deterministic; strings starting with
`"http"` are classified URL regardless of suffix; a normalized suffix in
the enum table yields the matching tag; an unmapped suffix raises
`ValueError` from enum construction, so classification is partial, not
total with an Unrecognized result. -/
theorem get_document_type_c4_spec (source : String) :
    (startsWithChars source.data ("http".data) = true →
      get_document_type source = .ok .url) ∧
    (startsWithChars source.data ("http".data) = false →
      (∀ t, documentTypeFromSuffix (normSuffix source) = some t →
        get_document_type source = .ok t) ∧
      (documentTypeFromSuffix (normSuffix source) = none →
        get_document_type source = .error (.valueError (String.mk (normSuffix source))))) := by
  constructor
  · intro h
    simp [get_document_type, h]
  · intro h
    constructor
    · intro t ht
      simp [get_document_type, h, ht]
    · intro ht
      simp [get_document_type, h, ht]

/-- C4 witness: a supported suffix in upper case classifies to its tag,
and an http source with unmapped suffix classifies as URL. -/
theorem get_document_type_c4_spec_witness :
    get_document_type "a.TXT" = .ok .txt ∧ get_document_type "http://x.exe" = .ok .url :=
  ⟨((get_document_type_c4_spec "a.TXT").2 (by decide)).1 .txt (by decide),
   (get_document_type_c4_spec "http://x.exe").1 (by decide)⟩

/-- C5 counterexample: loading an existing file whose suffix is outside
the enum makes `UnifiedLoader.load_single` raise the untyped
`ValueError` coming from `DocumentType(suffix)`, contradicting the claim
that failures are always distinguishable typed errors. -/
theorem load_single_c5_counterexample :
    load_single ["c.exe"] okExtract "c.exe" = .error (.valueError "exe") := rfl

/-- C5 (amended): `UnifiedLoader.load_single` raises one conflated
`DocumentLoadError("Unsupported or missing source: ...")` both for a
missing filesystem source and for an existing source mapped to no
loader (the enum's own `url` suffix falls through the dispatch to
`None`), so SourceNotFound and UnsupportedFormat are not
distinguishable; an existing source with a suffix outside the enum
raises an untyped `ValueError`; and a selected delegate's result —
success or exception — is passed through unwrapped, so extractor
failures are not wrapped in an ExtractionFailed-style error. -/
theorem load_single_c5_error_channels (fs : List String)
    (extract : LoaderKind → String → Except PyError Document) (source : String) :
    (startsWithChars source.data ("http://".data) = false →
      startsWithChars source.data ("https://".data) = false →
      (fs.contains source = false →
        load_single fs extract source =
          .error (.documentLoadError ("Unsupported or missing source: " ++ source))) ∧
      (fs.contains source = true →
        documentTypeFromSuffix (normSuffix source) = none →
        load_single fs extract source =
          .error (.valueError (String.mk (normSuffix source)))) ∧
      (fs.contains source = true →
        documentTypeFromSuffix (normSuffix source) = some .url →
        load_single fs extract source =
          .error (.documentLoadError ("Unsupported or missing source: " ++ source)))) ∧
    (∀ l, select_loader fs source = .ok (some l) →
      load_single fs extract source = extract l source) := by
  constructor
  · intro h1 h2
    refine ⟨?_, ?_, ?_⟩
    · intro hc
      have hm : ¬ source ∈ fs := by simpa using hc
      simp [load_single, select_loader, h1, h2, hm]
    · intro hc hn
      have hm : source ∈ fs := by simpa using hc
      simp [load_single, select_loader, h1, h2, hm, hn]
    · intro hc hu
      have hm : source ∈ fs := by simpa using hc
      simp [load_single, select_loader, h1, h2, hm, hu]
  · intro l hl
    simp [load_single, hl]

/-- C5 witness: a missing text file and an existing `.url`-suffix file
both fail through the same conflated `DocumentLoadError` channel. -/
theorem load_single_c5_error_channels_witness :
    load_single [] okExtract "missing.txt" =
      .error (.documentLoadError "Unsupported or missing source: missing.txt") ∧
    load_single ["a.url"] okExtract "a.url" =
      .error (.documentLoadError "Unsupported or missing source: a.url") :=
  ⟨(((load_single_c5_error_channels [] okExtract "missing.txt").1
      (by decide) (by decide)).1 (by decide)),
   (((load_single_c5_error_channels ["a.url"] okExtract "a.url").1
      (by decide) (by decide)).2.2 (by decide) (by decide))⟩

theorem load_directory_docs_length (fs : List String)
    (extract : LoaderKind → String → Except PyError Document) (sources : List String) :
    (load_directory_docs fs extract sources).length +
      (sources.filter (fun s => (exToOption (load_single fs extract s)).isNone)).length =
      sources.length := by
  induction sources with
  | nil => rfl
  | cons s rest ih =>
    cases h : load_single fs extract s with
    | ok d =>
      simp only [load_directory_docs, load_directory_results, List.map_cons,
        List.filterMap_cons, List.filter_cons, h, exToOption, Option.isNone_some,
        Bool.false_eq_true, if_false, List.length_cons] at ih ⊢
      omega
    | error e =>
      simp only [load_directory_docs, load_directory_results, List.map_cons,
        List.filterMap_cons, List.filter_cons, h, exToOption, Option.isNone_none,
        if_true, List.length_cons] at ih ⊢
      omega

theorem load_multiple_error_of_failure (fs : List String)
    (extract : LoaderKind → String → Except PyError Document) :
    ∀ (sources : List String) (s : String), s ∈ sources →
      exToOption (load_single fs extract s) = none →
      ∃ e, load_multiple fs extract sources = .error e := by
  intro sources
  induction sources with
  | nil => intro s hs _; cases hs
  | cons a rest ih =>
    intro s hs hnone
    rcases List.mem_cons.mp hs with rfl | hrest
    · cases h : load_single fs extract s with
      | ok d => rw [h] at hnone; simp [exToOption] at hnone
      | error e =>
        refine ⟨e, ?_⟩
        unfold load_multiple
        rw [List.map_cons, h]
        rfl
    · obtain ⟨e, he⟩ := ih s hrest hnone
      cases h : load_single fs extract a with
      | ok d =>
        refine ⟨e, ?_⟩
        unfold load_multiple at he ⊢
        rw [List.map_cons, h]
        show (gatherExcept (rest.map fun s => load_single fs extract s)).map _ = _
        rw [he]
        rfl
      | error e' =>
        refine ⟨e', ?_⟩
        unfold load_multiple
        rw [List.map_cons, h]
        rfl

/-- C2 (amended): the gather inside `load_directory` does produce
exactly one deterministic per-source result, but the method returns only
the successful Documents — the failures are filtered out of the returned
list (surviving only in a log line), so with K failures the caller gets
N−K outcomes, not N; and `BaseLoader.load_multiple` propagates any
per-source failure as an exception of the whole batch call. -/
theorem load_directory_c2_batch_semantics (fs : List String)
    (extract : LoaderKind → String → Except PyError Document) (sources : List String) :
    (load_directory_results fs extract sources).length = sources.length ∧
    (load_directory_docs fs extract sources).length +
      (sources.filter (fun s => (exToOption (load_single fs extract s)).isNone)).length =
      sources.length ∧
    ((∃ s ∈ sources, exToOption (load_single fs extract s) = none) →
      ∃ e, load_multiple fs extract sources = .error e) := by
  refine ⟨by simp [load_directory_results], load_directory_docs_length fs extract sources, ?_⟩
  rintro ⟨s, hs, hnone⟩
  exact load_multiple_error_of_failure fs extract sources s hs hnone

/-- C2 counterexample: two sources of which one is invalid — the batch
returns a single outcome instead of two (the failure is dropped), and
the base loader's batch call raises instead of returning outcomes. -/
theorem load_directory_c2_counterexample :
    (load_directory_docs ["a.txt"] okExtract ["a.txt", "b.txt"]).length = 1 ∧
    load_multiple ["a.txt"] okExtract ["a.txt", "b.txt"] =
      .error (.documentLoadError "Unsupported or missing source: b.txt") :=
  ⟨by decide, rfl⟩

/-- C2 witness: the failing source makes the unguarded batch call raise. -/
theorem load_directory_c2_batch_semantics_witness :
    ∃ e, load_multiple ["a.txt"] okExtract ["a.txt", "b.txt"] = .error e :=
  (load_directory_c2_batch_semantics ["a.txt"] okExtract ["a.txt", "b.txt"]).2.2
    ⟨"b.txt", by decide, rfl⟩

/-- C9: every Document built by `BaseLoader.create_document` carries
`word_count` equal to the number of whitespace-delimited words of its
content, `char_count` equal to its content's character length (both 0
for empty content), and stores the originating source string. -/
theorem create_document_c9_counts (title content source : String) (t : DocumentType) :
    (create_document title content source t).word_count = (pySplit content.data).length ∧
    (create_document title content source t).char_count = content.length ∧
    (create_document title content source t).source = source := by
  refine ⟨?_, ?_, rfl⟩ <;>
  · by_cases h : content = ""
    · subst h; rfl
    · simp [create_document, h]

theorem charListLe_trans : ∀ x y z : List Char,
    charListLe x y = true → charListLe y z = true → charListLe x z = true := by
  intro x
  induction x with
  | nil => intro y z _ _; rfl
  | cons a as ih =>
    intro y z hxy hyz
    cases y with
    | nil => exact absurd hxy (by simp [charListLe])
    | cons b bs =>
      cases z with
      | nil => exact absurd hyz (by simp [charListLe])
      | cons c cs =>
        by_cases hab : a = b
        · subst hab
          by_cases hbc : a = c
          · subst hbc
            have h1 : charListLe as bs = true := by simpa [charListLe] using hxy
            have h2 : charListLe bs cs = true := by simpa [charListLe] using hyz
            simpa [charListLe] using ih bs cs h1 h2
          · have h2 : a.toNat < c.toNat := by simpa [charListLe, hbc] using hyz
            simp [charListLe, hbc, h2]
        · have h1 : a.toNat < b.toNat := by simpa [charListLe, hab] using hxy
          by_cases hbc : b = c
          · subst hbc
            simp [charListLe, hab, h1]
          · have h2 : b.toNat < c.toNat := by simpa [charListLe, hbc] using hyz
            have hlt : a.toNat < c.toNat := Nat.lt_trans h1 h2
            have hac : ¬ a = c := by
              intro e
              subst e
              omega
            simp [charListLe, hac, hlt]

theorem charListLe_total : ∀ x y : List Char,
    charListLe x y = true ∨ charListLe y x = true := by
  intro x
  induction x with
  | nil => intro y; left; rfl
  | cons a as ih =>
    intro y
    cases y with
    | nil => right; rfl
    | cons b bs =>
      by_cases hab : a = b
      · subst hab
        rcases ih bs with h | h
        · left; simpa [charListLe] using h
        · right; simpa [charListLe] using h
      · rcases Nat.lt_trichotomy a.toNat b.toNat with h | h | h
        · left
          simp [charListLe, hab, h]
        · exfalso
          apply hab
          have hv : a.val.toNat = b.val.toNat := h
          have hval : a.val = b.val := UInt32.ext hv
          exact Char.ext hval
        · right
          have hba : ¬ b = a := fun e => hab e.symm
          simp [charListLe, hba, h]

instance pathR_total : IsTotal (List String) pathR where
  total a b := charListLe_total (pathString a) (pathString b)

instance pathR_trans : IsTrans (List String) pathR where
  trans a b c := charListLe_trans (pathString a) (pathString b) (pathString c)

/-- C7 counterexample: a tree containing a file named exactly `.pdf`.
Its filesystem suffix is empty — `Path(".pdf").suffix == ""`, so it is
not "a file whose suffix is in the supported set" — yet
`rglob("*.pdf")` matches it (fnmatch treats a leading dot like any
other character), so directory expansion returns it. -/
theorem load_directory_expand_c7_counterexample :
    load_directory_expand [["d"]] [["d", ".pdf"]] ["d"] = .ok [["d", ".pdf"]] ∧
    nameSuffix (".pdf".data) = [] :=
  ⟨rfl, rfl⟩

/-- C7 (amended): directory expansion aborts with the
DirectoryNotFound-style `DocumentLoadError` when the directory does not
exist, and otherwise returns exactly the files strictly below the
directory whose NAME matches a supported `*.ext` glob pattern — i.e.
ends in `.ext`, hidden files included, which differs from "suffix in
the supported set" only for dot-files like one named exactly `.ext` —
sorted lexicographically on the full path string, so the output is
deterministic across runs. -/
theorem load_directory_expand_c7 (dirs files : List (List String)) (dir : List String) :
    (dirs.contains dir = false →
      load_directory_expand dirs files dir =
        .error (.documentLoadError "Directory not found")) ∧
    (dirs.contains dir = true →
      ∃ l, load_directory_expand dirs files dir = .ok l ∧
        l.Sorted pathR ∧
        ∀ p, p ∈ l ↔ p ∈ files ∧ isProperUnder dir p = true ∧
          ∃ ext ∈ supportedExts, globExtMatch ext (fileNameOf p) = true) := by
  constructor
  · intro h
    have hm : ¬ dir ∈ dirs := by simpa using h
    simp [load_directory_expand, hm]
  · intro h
    have hm : dir ∈ dirs := by simpa using h
    refine ⟨find_supported_files files dir, by simp [load_directory_expand, hm],
      List.sorted_insertionSort pathR _, ?_⟩
    intro p
    unfold find_supported_files
    rw [List.mem_insertionSort]
    simp only [List.mem_flatten, List.mem_map]
    constructor
    · rintro ⟨lp, ⟨ext, hext, rfl⟩, hpin⟩
      unfold rglobMatches at hpin
      rw [List.mem_filter] at hpin
      obtain ⟨hpf, hcond⟩ := hpin
      rw [Bool.and_eq_true] at hcond
      exact ⟨hpf, hcond.1, ext, hext, hcond.2⟩
    · rintro ⟨hpf, hunder, ext, hext, hmatch⟩
      refine ⟨rglobMatches files dir ext, ⟨ext, hext, rfl⟩, ?_⟩
      unfold rglobMatches
      rw [List.mem_filter]
      exact ⟨hpf, by rw [Bool.and_eq_true]; exact ⟨hunder, hmatch⟩⟩

/-- C7 witness: a tree `d/` holding `a.txt`, `b.pdf`, `c.exe` expands to
`[d/a.txt, d/b.pdf]` in sorted order, excluding `c.exe`; the missing
directory `e/` aborts with the error. -/
theorem load_directory_expand_c7_witness :
    (∃ l, load_directory_expand [["d"]] [["d", "b.pdf"], ["d", "c.exe"], ["d", "a.txt"]]
        ["d"] = .ok l ∧
      l.Sorted pathR ∧
      ∀ p, p ∈ l ↔ p ∈ [["d", "b.pdf"], ["d", "c.exe"], ["d", "a.txt"]] ∧
        isProperUnder ["d"] p = true ∧
        ∃ ext ∈ supportedExts, globExtMatch ext (fileNameOf p) = true) ∧
    load_directory_expand [["d"]] [["d", "b.pdf"], ["d", "c.exe"], ["d", "a.txt"]] ["d"] =
      .ok [["d", "a.txt"], ["d", "b.pdf"]] ∧
    load_directory_expand [["d"]] [["d", "b.pdf"], ["d", "c.exe"], ["d", "a.txt"]] ["e"] =
      .error (.documentLoadError "Directory not found") :=
  ⟨(load_directory_expand_c7 [["d"]] [["d", "b.pdf"], ["d", "c.exe"], ["d", "a.txt"]]
      ["d"]).2 (by decide), rfl,
   (load_directory_expand_c7 [["d"]] [["d", "b.pdf"], ["d", "c.exe"], ["d", "a.txt"]]
      ["e"]).1 (by decide)⟩

theorem runningCount_set_running (ts : List TaskState) :
    ∀ i, ts[i]? = some .waiting →
      runningCount (ts.set i .running) = runningCount ts + 1 := by
  induction ts with
  | nil => intro i h; simp at h
  | cons t rest ih =>
    intro i h
    cases i with
    | zero =>
      simp only [List.getElem?_cons_zero, Option.some_inj] at h
      subst h
      simp [List.set, runningCount]
    | succ j =>
      simp only [List.getElem?_cons_succ] at h
      cases t <;> simp [List.set, runningCount, ih j h]

theorem runningCount_set_done (ts : List TaskState) :
    ∀ i, ts[i]? = some .running →
      runningCount (ts.set i .done) + 1 = runningCount ts := by
  induction ts with
  | nil => intro i h; simp at h
  | cons t rest ih =>
    intro i h
    cases i with
    | zero =>
      simp only [List.getElem?_cons_zero, Option.some_inj] at h
      subst h
      simp [List.set, runningCount]
    | succ j =>
      simp only [List.getElem?_cons_succ] at h
      have hr := ih j h
      cases t <;> simp [List.set, runningCount] <;> omega


theorem semStep_preserves (limit : Nat) {ts ts' : List TaskState}
    (h : SemStep limit ts ts') (hb : runningCount ts ≤ limit) :
    runningCount ts' ≤ limit := by
  cases h with
  | acquire i hget hcap =>
    rw [runningCount_set_running ts i hget]
    omega
  | release i hget =>
    have := runningCount_set_done ts i hget
    omega

/-- C8: along every schedule of the semaphore-guarded gather starting
from all tasks waiting, the number of in-flight single-source loads
never exceeds the concurrency ceiling, for every task count and every
ceiling value. -/
theorem semaphore_bounds_running_c8 (limit n : Nat) (s : List TaskState)
    (h : Relation.ReflTransGen (SemStep limit) (List.replicate n .waiting) s) :
    runningCount s ≤ limit := by
  induction h with
  | refl =>
    have hz : ∀ m, runningCount (List.replicate m TaskState.waiting) = 0 := by
      intro m
      induction m with
      | zero => rfl
      | succ k ih => simpa [List.replicate, runningCount] using ih
    rw [hz n]
    omega
  | tail hsteps hstep ih => exact semStep_preserves limit hstep ih

/-- C8 witness: ceiling 1, two tasks; the state reached by one acquire
step respects the bound. -/
theorem semaphore_bounds_running_c8_witness :
    runningCount [TaskState.running, TaskState.waiting] ≤ 1 :=
  semaphore_bounds_running_c8 1 2 [TaskState.running, TaskState.waiting]
    (Relation.ReflTransGen.single
      (SemStep.acquire (List.replicate 2 TaskState.waiting) 0 rfl (by decide)))

/-- C10: when BeautifulSoup is unavailable (the ImportError branches),
HTML handling does not fail: the local HTML loader returns the raw file
text unchanged, and the web fetch returns the response body unchanged
whether or not the content type says html. -/
theorem html_without_bs4_c10 (raw content_type body : String) :
    load_html none raw = .ok raw ∧
    extract_html_text none body = body ∧
    fetch_url_content none content_type body = body := by
  refine ⟨rfl, rfl, ?_⟩
  unfold fetch_url_content
  split <;> rfl
